import Mathlib

/-!
Verification of the backend abstraction and dispatch layer of
`pylablib/core/devio/comm_backend.py`: terminator stripping, the serial
line-assembly loop, the scoped-timeout helper, connection-parameter
normalization, backend autodetection, the backend factory, fixed-size reads,
the connect-on-operation reference counter, and the VISA locking methods.
Byte strings are modelled as `List Nat`, Python dicts as ordered association
lists, and the transport layer as explicit byte streams or oracles.
-/

namespace CommBackend

/-- A byte string (Python `bytes`), as a list of byte values. -/
abbrev Bytes := List Nat

/-- Python `msg[:-tcs]` for a byte string: with `tcs = 0` this is `msg[:0]`,
i.e. the empty string; otherwise it keeps all but the last `tcs` bytes. -/
def pyTailSlice (msg : Bytes) (tcs : Nat) : Bytes :=
  if tcs = 0 then [] else msg.take (msg.length - tcs)

/-- `comm_backend.remove_longest_term(msg, terms)`: scan `terms`, record the
greatest length `tcs` of a terminator that is a suffix of `msg`
(`tcs = 0` when none matches), and return `msg[:-tcs]`. -/
def remove_longest_term (msg : Bytes) (terms : List Bytes) : Bytes :=
  pyTailSlice msg
    (terms.foldl (fun tcs t => if t.isSuffixOf msg then max tcs t.length else tcs) 0)

/-- The accumulated maximum computed inside `remove_longest_term`. -/
def longestTermLen (msg : Bytes) (terms : List Bytes) : Nat :=
  terms.foldl (fun tcs t => if t.isSuffixOf msg then max tcs t.length else tcs) 0

theorem remove_longest_term_eq (msg : Bytes) (terms : List Bytes) :
    remove_longest_term msg terms = pyTailSlice msg (longestTermLen msg terms) := rfl

/-- Contribution of a single terminator to the running maximum. -/
def termWeight (msg t : Bytes) : Nat := if t.isSuffixOf msg then t.length else 0

theorem longestTermLen_nil (msg : Bytes) : longestTermLen msg [] = 0 := rfl

theorem foldl_term_init (msg : Bytes) :
    ∀ (l : List Bytes) (n : Nat),
      l.foldl (fun tcs t => if t.isSuffixOf msg then max tcs t.length else tcs) n =
      max n (longestTermLen msg l) := by
  intro l
  induction l with
  | nil => intro n; simp [longestTermLen]
  | cons a l ih =>
    intro n
    have hstep : ∀ m : Nat,
        (if a.isSuffixOf msg then max m a.length else m) = max m (termWeight msg a) := by
      intro m
      by_cases h : a.isSuffixOf msg <;> simp [termWeight, h]
    simp only [longestTermLen, List.foldl_cons]
    rw [show (if a.isSuffixOf msg then max n a.length else n) = max n (termWeight msg a)
          from hstep n, ih,
        show (if a.isSuffixOf msg then max 0 a.length else 0) = max 0 (termWeight msg a)
          from hstep 0, ih]
    simp [longestTermLen, max_assoc]

theorem longestTermLen_cons (msg a : Bytes) (l : List Bytes) :
    longestTermLen msg (a :: l) = max (termWeight msg a) (longestTermLen msg l) := by
  have := foldl_term_init msg l (if a.isSuffixOf msg then max 0 a.length else 0)
  simp only [longestTermLen, List.foldl_cons] at *
  rw [this]
  by_cases h : a.isSuffixOf msg <;> simp [termWeight, h]

theorem longestTermLen_le (msg : Bytes) (terms : List Bytes) (t : Bytes)
    (ht : t ∈ terms) (hs : t <:+ msg) : t.length ≤ longestTermLen msg terms := by
  induction terms with
  | nil => cases ht
  | cons a l ih =>
    rw [longestTermLen_cons]
    rcases List.mem_cons.mp ht with h | h
    · subst h
      have : termWeight msg t = t.length := by
        simp [termWeight, List.isSuffixOf_iff_suffix, hs]
      rw [this]; exact le_max_left _ _
    · exact le_trans (ih h) (le_max_right _ _)

theorem longestTermLen_mem (msg : Bytes) (terms : List Bytes)
    (h : longestTermLen msg terms ≠ 0) :
    ∃ t ∈ terms, t <:+ msg ∧ t.length = longestTermLen msg terms := by
  induction terms with
  | nil => simp [longestTermLen_nil] at h
  | cons a l ih =>
    rw [longestTermLen_cons] at h ⊢
    rcases max_choice (termWeight msg a) (longestTermLen msg l) with hm | hm
    · rw [hm] at h ⊢
      refine ⟨a, List.mem_cons_self a l, ?_, ?_⟩
      · by_contra hns
        have : termWeight msg a = 0 := by
          simp only [termWeight, ite_eq_right_iff]
          intro hsuf
          exact absurd (List.isSuffixOf_iff_suffix.mp hsuf) hns
        exact h this
      · by_cases hsuf : a.isSuffixOf msg
        · simp [termWeight, hsuf]
        · exact absurd (by simp [termWeight, hsuf]) h
    · rw [hm] at h ⊢
      obtain ⟨t, htl, hts, hlen⟩ := ih h
      exact ⟨t, List.mem_cons_of_mem a htl, hts, hlen⟩

theorem longestTermLen_zero (msg : Bytes) (terms : List Bytes)
    (h : ∀ t ∈ terms, ¬ t <:+ msg) : longestTermLen msg terms = 0 := by
  induction terms with
  | nil => rfl
  | cons a l ih =>
    rw [longestTermLen_cons]
    have ha : termWeight msg a = 0 := by
      simp only [termWeight, ite_eq_right_iff]
      intro hsuf
      exact absurd (List.isSuffixOf_iff_suffix.mp hsuf) (h a (List.mem_cons_self a l))
    rw [ha, ih fun t htl => h t (List.mem_cons_of_mem a htl)]
    simp

/-- C1 (amended): when some **nonempty** terminator of `terms` is a suffix of
`msg`, `remove_longest_term` removes from the tail of `msg` exactly the
longest terminator (by byte length) that is a suffix of `msg`. The
nonemptiness condition is forced: with an empty terminator the Python slice
`msg[:-0]` empties the whole buffer (see the counterexample). -/
theorem remove_longest_term_strips_longest (msg : Bytes) (terms : List Bytes)
    (h : ∃ t ∈ terms, t ≠ [] ∧ t <:+ msg) :
    ∃ t ∈ terms, t <:+ msg ∧ (∀ u ∈ terms, u <:+ msg → u.length ≤ t.length) ∧
      remove_longest_term msg terms ++ t = msg := by
  obtain ⟨t₀, ht₀, hne, hs₀⟩ := h
  have hL : longestTermLen msg terms ≠ 0 := by
    have h1 : 1 ≤ t₀.length := by
      cases t₀ with
      | nil => exact absurd rfl hne
      | cons b bs => simp
    have := longestTermLen_le msg terms t₀ ht₀ hs₀
    omega
  obtain ⟨t, htmem, hts, hlen⟩ := longestTermLen_mem msg terms hL
  refine ⟨t, htmem, hts, ?_, ?_⟩
  · intro u hu hus
    rw [hlen]
    exact longestTermLen_le msg terms u hu hus
  · obtain ⟨s, hsplit⟩ := hts
    have hmsglen : msg.length = s.length + t.length := by
      rw [← hsplit, List.length_append]
    have hlen2 : msg.length - longestTermLen msg terms = s.length := by
      omega
    rw [remove_longest_term_eq, pyTailSlice, if_neg hL, hlen2, ← hsplit, List.take_left]

/-- C1 counterexample: take `B = b"a"` and `T = [b""]`. `B` ends with the
(empty) element of `T`, and removing the longest suffix-matching terminator
(the empty string) should leave `b"a"`; the code instead returns `b""`
because `msg[:-0]` is the empty slice. -/
theorem remove_longest_term_empty_term_counterexample :
    (([] : Bytes) ∈ ([[]] : List Bytes)) ∧ (([] : Bytes) <:+ [97]) ∧
      remove_longest_term [97] [[]] ++ ([] : Bytes) ≠ [97] := by decide

/-- Witness for C1 at `B = b"da\r\n"`, `T = [b"\n", b"\r\n"]`: both bytes of
the two-byte terminator are removed. -/
theorem remove_longest_term_strips_longest_witness :
    ∃ t ∈ ([[10], [13, 10]] : List Bytes), t <:+ ([100, 97, 13, 10] : Bytes) ∧
      (∀ u ∈ ([[10], [13, 10]] : List Bytes),
        u <:+ ([100, 97, 13, 10] : Bytes) → u.length ≤ t.length) ∧
      remove_longest_term [100, 97, 13, 10] [[10], [13, 10]] ++ t = [100, 97, 13, 10] :=
  remove_longest_term_strips_longest [100, 97, 13, 10] [[10], [13, 10]]
    ⟨[13, 10], by decide, by decide, by decide⟩

/-- C9: when no terminator of `terms` is a suffix of `msg` (in particular when
`terms` is empty), `remove_longest_term` returns the empty byte string
rather than `msg` unchanged: the running maximum stays `0` and the Python
slice `msg[:-0]` is empty. This is what erases a partial line read with
`error_on_timeout=False` before the `skip_empty` test in `readline`. -/
theorem remove_longest_term_no_match_empty (msg : Bytes) (terms : List Bytes)
    (h : ∀ t ∈ terms, ¬ t <:+ msg) : remove_longest_term msg terms = [] := by
  rw [remove_longest_term_eq, longestTermLen_zero msg terms h]
  simp [pyTailSlice]

/-- Witness for C9 at the partial line `b"ab"` with terminator set
`[b"\n"]`. -/
theorem remove_longest_term_no_match_empty_witness :
    (∀ t ∈ ([[10]] : List Bytes), ¬ t <:+ ([97, 98] : Bytes)) ∧
      remove_longest_term [97, 98] [[10]] = [] :=
  ⟨by decide, remove_longest_term_no_match_empty [97, 98] [[10]] (by decide)⟩

theorem longestTermLen_le_bound (msg : Bytes) (terms : List Bytes) (k : Nat)
    (h : ∀ t ∈ terms, t.length ≤ k) : longestTermLen msg terms ≤ k := by
  induction terms with
  | nil => simp [longestTermLen_nil]
  | cons a l ih =>
    rw [longestTermLen_cons]
    have ha : termWeight msg a ≤ k := by
      by_cases hsuf : a.isSuffixOf msg
      · simpa [termWeight, hsuf] using h a (List.mem_cons_self a l)
      · simp [termWeight, hsuf]
    exact max_le ha (ih fun t htl => h t (List.mem_cons_of_mem a htl))

/-! ### Serial line assembly (`SerialDeviceBackend._read_terms` / `readline`)

The pySerial transport is modelled as a finite byte stream: `instr.read(n)`
returns the next `min n |stream|` bytes, and returns `b""` (the timeout
signal) exactly when the stream is exhausted.  `Except Unit` models the
`self.Error("timeout during read")` exception. -/

/-- `SerialDeviceBackend._read_terms(terms, error_on_timeout)` on a byte
stream `s` with accumulated bytes `result`: read one byte at a time (a block
of 8 when no terminator is configured), append it, return on the timeout
signal (raising if `error_on_timeout` and terminators were required), and
otherwise return as soon as a terminator matches — by single-byte membership
when every terminator is one byte, else by suffix match. -/
def readTerms (terms : List Bytes) (eot : Bool) (s : List Nat) (result : Bytes) :
    Except Unit (Bytes × List Nat) :=
  match s with
  | [] =>
      if eot && !terms.isEmpty then .error () else .ok (result, [])
  | b :: rest =>
      let n := if terms.isEmpty then 8 else 1
      let c := (b :: rest).take n
      let s' := (b :: rest).drop n
      let result' := result ++ c
      if (terms.all fun t => t.length == 1) && terms.contains c then .ok (result', s')
      else if (!terms.all fun t => t.length == 1) &&
          (terms.any fun t => t.isSuffixOf result') then .ok (result', s')
      else readTerms terms eot s' result'
  termination_by s.length
  decreasing_by
    simp only [List.length_drop, List.length_cons]
    split <;> omega

/-- `SerialDeviceBackend.readline(remove_term, skip_empty, error_on_timeout)`
over the stream `s`: call `_read_terms` with the configured read terminators,
strip the longest terminator when `remove_term` is set and terminators are
configured, and loop while `skip_empty and remove_term` and the stripped
result is empty.  `fuel` bounds the number of loop iterations; `none` models
divergence of the `while True` loop. -/
def readline (termRead : List Bytes) (removeTerm skipEmpty eot : Bool) (fuel : Nat)
    (s : List Nat) : Option (Except Unit (Bytes × List Nat)) :=
  match fuel with
  | 0 => none
  | fuel + 1 =>
    match readTerms termRead eot s [] with
    | .error e => some (.error e)
    | .ok (result, s') =>
        let result' := if removeTerm && !termRead.isEmpty then
            remove_longest_term result termRead else result
        if !(skipEmpty && removeTerm && result'.isEmpty) then some (.ok (result', s'))
        else readline termRead removeTerm skipEmpty eot fuel s'

instance : DecidableEq (Except Unit (Bytes × List Nat)) := fun a b =>
  match a, b with
  | .error x, .error y => isTrue (by cases x; cases y; rfl)
  | .ok x, .ok y =>
      if h : x = y then isTrue (by rw [h]) else isFalse (fun c => h (Except.ok.inj c))
  | .error _, .ok _ => isFalse (fun c => Except.noConfusion c)
  | .ok _, .error _ => isFalse (fun c => Except.noConfusion c)

theorem remove_longest_term_single (termRead : List Bytes) (c : Nat)
    (hone : ∀ t ∈ termRead, t.length = 1) (hc : [c] ∈ termRead) :
    remove_longest_term [c] termRead = [] := by
  have h1 : longestTermLen [c] termRead = 1 := by
    refine le_antisymm (longestTermLen_le_bound _ _ 1 fun t ht => le_of_eq (hone t ht)) ?_
    simpa using longestTermLen_le [c] termRead [c] hc (List.suffix_refl [c])
  rw [remove_longest_term_eq, h1]
  rfl

theorem readline_succ (termRead : List Bytes) (rt se eot : Bool) (fuel : Nat)
    (s : List Nat) :
    readline termRead rt se eot (fuel + 1) s =
      match readTerms termRead eot s [] with
      | .error e => some (.error e)
      | .ok (result, s') =>
          let result' := if rt && !termRead.isEmpty then
              remove_longest_term result termRead else result
          if !(se && rt && result'.isEmpty) then some (.ok (result', s'))
          else readline termRead rt se eot fuel s' := rfl

theorem readTerms_singlechar_hit (termRead : List Bytes) (eot : Bool)
    (rest : List Nat) (c : Nat)
    (hone : ∀ t ∈ termRead, t.length = 1) (hc : [c] ∈ termRead)
    (hemp : termRead.isEmpty = false) :
    readTerms termRead eot (c :: rest) [] = .ok ([c], rest) := by
  have hall : (termRead.all fun t => t.length == 1) = true := by
    rw [List.all_eq_true]
    intro t ht
    exact beq_iff_eq.mpr (hone t ht)
  have hcont : termRead.contains [c] = true := List.elem_eq_true_of_mem hc
  rw [readTerms]
  simp only [hemp, Bool.false_eq_true, if_false, List.take_succ_cons, List.take_zero,
    List.drop_succ_cons, List.drop_zero, List.nil_append, hall, hcont, Bool.and_self, if_true]

/-- C3: for the serial `readline` with `remove_term=True` and
`skip_empty=True` over single-byte terminator sets: (i) every normally
returned line is non-empty after stripping; (ii) a stream whose next line is
terminator-only is skipped — `readline` on `c :: rest` with `[c]` a
configured terminator continues as `readline` on `rest`; (iii) with
`remove_term=False` the suppression does not apply: the bare terminator line
`[c]` is returned as-is. -/
theorem readline_skip_empty (termRead : List Bytes) (eot : Bool) (fuel : Nat)
    (s rest : List Nat) (c : Nat) (r : Bytes) (s' : List Nat)
    (hone : ∀ t ∈ termRead, t.length = 1) (hc : [c] ∈ termRead) :
    (readline termRead true true eot fuel s = some (.ok (r, s')) → r ≠ []) ∧
    (readline termRead true true eot (fuel + 1) (c :: rest) =
      readline termRead true true eot fuel rest) ∧
    (readline termRead false true eot (fuel + 1) (c :: rest) = some (.ok ([c], rest))) :=
  by
  have hne : termRead ≠ [] := List.ne_nil_of_mem hc
  have hemp : termRead.isEmpty = false := by
    cases termRead with
    | nil => exact absurd rfl hne
    | cons _ _ => rfl
  have hfirst : readTerms termRead eot (c :: rest) [] = .ok ([c], rest) :=
    readTerms_singlechar_hit termRead eot rest c hone hc hemp
  refine ⟨?_, ?_, ?_⟩
  · induction fuel generalizing s with
    | zero => intro h; simp [readline] at h
    | succ n ih =>
      intro h
      rw [readline_succ] at h
      cases hrt : readTerms termRead eot s [] with
      | error e => rw [hrt] at h; simp at h
      | ok p =>
        rw [hrt] at h
        obtain ⟨result, s₁⟩ := p
        simp only [hemp, Bool.not_false, Bool.and_self, Bool.true_and, Bool.and_true] at h
        by_cases hR : remove_longest_term result termRead = []
        · simp only [hR, List.isEmpty_nil, Bool.not_true, Bool.false_eq_true, if_false] at h
          exact ih s₁ h
        · simp only [List.isEmpty_eq_false.mpr hR, Bool.not_false, if_true] at h
          simp only [Option.some.injEq, Except.ok.injEq, Prod.mk.injEq] at h
          exact h.1 ▸ hR
  · rw [readline_succ, hfirst]
    simp only [hemp, Bool.not_false, Bool.and_self, Bool.true_and, Bool.and_true,
      remove_longest_term_single termRead c hone hc]
    simp
  · rw [readline_succ, hfirst]
    simp

/-- Witness for C3 with terminator set `[b"\n"]` on the stream
`b"\n\nhi\n"`: instantiates the theorem at that stream and additionally
evaluates the model end-to-end, showing `b"hi"` is the first returned
line. -/
theorem readline_skip_empty_witness :
    (((readline [[10]] true true true 3 [10, 10, 104, 105, 10] =
        some (.ok ([104, 105], [])) → ([104, 105] : Bytes) ≠ []) ∧
      (readline [[10]] true true true (3 + 1) (10 :: [10, 104, 105, 10]) =
        readline [[10]] true true true 3 [10, 104, 105, 10]) ∧
      (readline [[10]] false true true (3 + 1) (10 :: [10, 104, 105, 10]) =
        some (.ok ([10], [10, 104, 105, 10]))))) ∧
    readline [[10]] true true true 4 [10, 10, 104, 105, 10] =
      some (.ok ([104, 105], [])) := by
  constructor
  · exact readline_skip_empty [[10]] true 3 [10, 10, 104, 105, 10]
      [10, 104, 105, 10] 10 [104, 105] [] (by decide) (by decide)
  · simp [readline, readTerms, remove_longest_term, pyTailSlice]
    decide

/-! ### Scoped timeout helper (`IDeviceCommBackend.using_timeout`)

The timeout state of a serial backend: `timeout` is `instr.timeout`
(`none` = pySerial blocking mode), and `setCalls` records every invocation of
the backend's `set_timeout` method.  `SerialDeviceBackend.set_timeout` writes
`instr.timeout` only when its argument is not `None`. -/

/-- Whether the wrapped block returned normally or raised. -/
inductive Outcome where
  | normal
  | raised
  deriving DecidableEq

structure TState where
  timeout : Option ℚ
  setCalls : List (Option ℚ)
  deriving DecidableEq

/-- `SerialDeviceBackend.set_timeout(timeout)`: a no-op on the transport when
the argument is `None`; the invocation itself is recorded. -/
def set_timeout (t : Option ℚ) (st : TState) : TState :=
  { timeout := match t with | none => st.timeout | some v => some v,
    setCalls := st.setCalls ++ [t] }

/-- `SerialDeviceBackend.get_timeout()`: returns `instr.timeout`. -/
def get_timeout (st : TState) : Option ℚ := st.timeout

/-- `IDeviceCommBackend.using_timeout(timeout)` around a block `body`: when
the requested timeout is not `None` and differs from the current one, set it
on entry and set the saved value back in a `finally` clause (running on both
normal and raising exits); otherwise touch nothing. -/
def using_timeout (t : Option ℚ) (body : TState → Outcome × TState) (st : TState) :
    Outcome × TState :=
  match t with
  | none => body st
  | some v =>
      let t0 := get_timeout st
      let st1 := if t0 ≠ some v then set_timeout (some v) st else st
      let r := body st1
      let st3 := if t0 ≠ some v then set_timeout t0 r.2 else r.2
      (r.1, st3)

/-- C4 (amended): with prior timeout `c`, `using_timeout t` calls
`set_timeout` exactly twice — with `t` on entry and `c` on exit, on both
normal and raising exits — when `t ≠ None` and `t ≠ c`, and not at all
otherwise; the timeout after the block equals `c` whenever `t = None`,
`t = c`, or `c ≠ None`.  When `c = None` and `t ≠ None`, however, the
restoring call `set_timeout(None)` leaves the transport unchanged (`None`
means leave-unchanged), so the timeout after the block is `t`, not `c`. -/
theorem using_timeout_restores (c t : Option ℚ) (body : TState → Outcome × TState)
    (st : TState) (hc : st.timeout = c)
    (hbody : ∀ s, ((body s).2).timeout = s.timeout ∧ ((body s).2).setCalls = s.setCalls) :
    ((using_timeout t body st).2.setCalls =
      st.setCalls ++ (if t ≠ none ∧ t ≠ c then [t, c] else [])) ∧
    (t = none ∨ t = c → (using_timeout t body st).2.timeout = c) ∧
    (c ≠ none → (using_timeout t body st).2.timeout = c) ∧
    (c = none → t ≠ none → (using_timeout t body st).2.timeout = t) := by
  subst hc
  match t with
  | none =>
      simp only [using_timeout]
      refine ⟨?_, ?_, ?_, ?_⟩
      · simp [(hbody st).2]
      · intro _; exact (hbody st).1
      · intro _; exact (hbody st).1
      · intro _ h2; exact absurd rfl h2
  | some v =>
      by_cases hvc : st.timeout = some v
      · have hru : using_timeout (some v) body st = ((body st).1, (body st).2) := by
          simp only [using_timeout, get_timeout, hvc, ne_eq, not_true_eq_false, if_false,
            ite_self]
        refine ⟨?_, ?_, ?_, ?_⟩
        · rw [hru]
          have : ¬ ((some v : Option ℚ) ≠ none ∧ (some v : Option ℚ) ≠ st.timeout) := by
            rw [hvc]; simp
          rw [if_neg this, List.append_nil]
          exact (hbody st).2
        · intro _; rw [hru]; exact (hbody st).1
        · intro _; rw [hru]; exact (hbody st).1
        · intro h _; exact absurd (h.symm.trans hvc) (by simp)
      · have hvc' : (some v : Option ℚ) ≠ st.timeout := fun h => hvc h.symm
        have hru : using_timeout (some v) body st =
            ((body (set_timeout (some v) st)).1,
              set_timeout st.timeout (body (set_timeout (some v) st)).2) := by
          simp only [using_timeout, get_timeout, ne_eq, hvc, not_false_eq_true, if_true]
        have hbs : (body (set_timeout (some v) st)).2.setCalls = st.setCalls ++ [some v] :=
          (hbody (set_timeout (some v) st)).2
        have hbt : (body (set_timeout (some v) st)).2.timeout = some v :=
          (hbody (set_timeout (some v) st)).1
        have hbs' : (body ({ timeout := some v, setCalls := st.setCalls ++ [some v] } :
            TState)).2.setCalls = st.setCalls ++ [some v] := hbs
        have hbt' : (body ({ timeout := some v, setCalls := st.setCalls ++ [some v] } :
            TState)).2.timeout = some v := hbt
        refine ⟨?_, ?_, ?_, ?_⟩
        · rw [hru]
          have : ((some v : Option ℚ) ≠ none ∧ (some v : Option ℚ) ≠ st.timeout) :=
            ⟨by simp, hvc'⟩
          rw [if_pos this]
          simp [set_timeout, hbs']
        · intro h
          rcases h with h | h
          · cases h
          · exact absurd h.symm hvc
        · intro h
          rw [hru]
          cases hcv : st.timeout with
          | none => exact absurd hcv h
          | some cv => simp [set_timeout, hcv]
        · intro h _
          rw [hru]
          simp [set_timeout, h, hbt']

/-- C4 counterexample: a serial backend in pySerial blocking mode (prior
timeout `None`).  Entering `using_timeout(5)` and exiting — the exit call
`set_timeout(None)` is a transport no-op — leaves the timeout at `5`, not at
the prior value. -/
theorem using_timeout_none_not_restored_counterexample :
    (using_timeout (some 5) (fun s => (Outcome.normal, s))
        { timeout := none, setCalls := [] }).2.timeout ≠
      ({ timeout := none, setCalls := [] } : TState).timeout := by
  decide

/-- Witness for C4 at `c = 3`, `t = 5`, with a body that raises: both
`set_timeout` calls happen and the timeout is restored to `3`. -/
theorem using_timeout_restores_witness :
    ((using_timeout (some 5) (fun s => (Outcome.raised, s))
        { timeout := some 3, setCalls := [] }).2.setCalls =
      [] ++ (if (some 5 : Option ℚ) ≠ none ∧ (some 5 : Option ℚ) ≠ some 3 then
        [some 5, some 3] else [])) ∧
    ((some 5 : Option ℚ) = none ∨ (some 5 : Option ℚ) = some 3 →
      (using_timeout (some 5) (fun s => (Outcome.raised, s))
        { timeout := some 3, setCalls := [] }).2.timeout = some 3) ∧
    ((some 3 : Option ℚ) ≠ none →
      (using_timeout (some 5) (fun s => (Outcome.raised, s))
        { timeout := some 3, setCalls := [] }).2.timeout = some 3) ∧
    ((some 3 : Option ℚ) = none → (some 5 : Option ℚ) ≠ none →
      (using_timeout (some 5) (fun s => (Outcome.raised, s))
        { timeout := some 3, setCalls := [] }).2.timeout = some 5) :=
  using_timeout_restores (some 3) (some 5) (fun s => (Outcome.raised, s))
    { timeout := some 3, setCalls := [] } rfl (fun _ => ⟨rfl, rfl⟩)

/-! ### Connection-parameter normalization (`IDeviceCommBackend._conn_to_dict`
and `combine_conn`)

Python values that occur as connection parameters, and Python dicts as
ordered association lists (`dict.update` keeps the position of existing keys
and appends new ones). -/

inductive PyConn where
  | pstr (s : String)
  | pint (n : Int)
  | pseq (vs : List PyConn)
  | pdict (d : List (String × PyConn))

abbrev PyDict := List (String × PyConn)

def dlookup (k : String) : PyDict → Option PyConn
  | [] => none
  | (k', v) :: rest => if k' = k then some v else dlookup k rest

/-- Python `base.update(upd)` on dicts: keys already in `base` keep their
position and take the value from `upd`; keys only in `upd` are appended in
`upd`'s order. -/
def dictUpdate (base upd : PyDict) : PyDict :=
  (base.map fun kv => match dlookup kv.1 upd with | some v => (kv.1, v) | none => kv) ++
    upd.filter fun kv => (dlookup kv.1 base).isNone

/-- `IDeviceCommBackend._conn_to_dict(conn)` for a backend class with ordered
parameter names `connParams`: a dict is returned as-is, a tuple/list is
zipped against the parameter names, and a bare scalar fills the first
parameter name only. -/
def conn_to_dict (connParams : List String) : PyConn → PyDict
  | .pdict d => d
  | .pseq vs => connParams.zip vs
  | c => match connParams with
         | p :: _ => [(p, c)]
         | [] => []

/-- `IDeviceCommBackend.combine_conn(conn1, conn2)`: start from the dict form
of `conn2` and update it with the dict form of `conn1` (`conn1` wins). -/
def combine_conn (connParams : List String) (conn1 conn2 : PyConn) : PyDict :=
  dictUpdate (conn_to_dict connParams conn2) (conn_to_dict connParams conn1)

theorem dlookup_append (k : String) (A B : PyDict) :
    dlookup k (A ++ B) =
      match dlookup k A with
      | some v => some v
      | none => dlookup k B := by
  induction A with
  | nil => simp [dlookup]
  | cons kv rest ih =>
    obtain ⟨k1, v1⟩ := kv
    by_cases h : k1 = k
    · simp [dlookup, h]
    · simp [dlookup, h, ih]

theorem dlookup_map_upd (base upd : PyDict) (k : String) :
    dlookup k
      (base.map fun kv => match dlookup kv.1 upd with | some v => (kv.1, v) | none => kv) =
      match dlookup k base with
      | none => none
      | some v =>
        match dlookup k upd with
        | some w => some w
        | none => some v := by
  induction base with
  | nil => simp [dlookup]
  | cons kv rest ih =>
    obtain ⟨k1, v1⟩ := kv
    by_cases h : k1 = k
    · subst h
      cases hupd : dlookup k1 upd <;> simp [dlookup, hupd]
    · cases hupd : dlookup k1 upd <;> simp [dlookup, h, hupd, ih]

theorem dlookup_filter_none (upd base : PyDict) (k : String)
    (h : dlookup k base = none) :
    dlookup k (upd.filter fun kv => (dlookup kv.1 base).isNone) = dlookup k upd := by
  induction upd with
  | nil => simp
  | cons kv rest ih =>
    obtain ⟨k1, v1⟩ := kv
    by_cases hk : k1 = k
    · subst hk
      simp [dlookup, h, List.filter_cons]
    · cases hcond : (dlookup k1 base).isNone <;>
        simp [List.filter_cons, hcond, dlookup, hk, ih]

theorem dlookup_dictUpdate (base upd : PyDict) (k : String) :
    dlookup k (dictUpdate base upd) =
      match dlookup k upd with
      | some w => some w
      | none => dlookup k base := by
  rw [dictUpdate, dlookup_append, dlookup_map_upd]
  cases hb : dlookup k base with
  | none =>
      rw [dlookup_filter_none upd base k hb]
      cases dlookup k upd <;> simp
  | some v => cases dlookup k upd <;> simp

theorem zip_eq_zip_take (l2 : List PyConn) :
    ∀ l1 : List String, l1.zip l2 = (l1.take l2.length).zip l2 := by
  induction l2 with
  | nil => intro l1; simp
  | cons w ws ih =>
    intro l1
    cases l1 with
    | nil => simp
    | cons p ps => simp [List.zip_cons_cons, ih ps]

theorem dlookup_zip_drop_none (params : List String) :
    ∀ (vs : List PyConn) (q : String), params.Nodup →
      q ∈ params.drop vs.length → dlookup q (params.zip vs) = none := by
  induction params with
  | nil => intro vs q _ hq; simp at hq
  | cons p ps ih =>
    intro vs q hnd hq
    cases vs with
    | nil => simp [dlookup]
    | cons w ws =>
      simp only [List.length_cons, List.drop_succ_cons] at hq
      have hqps : q ∈ ps := List.mem_of_mem_drop hq
      have hpq : p ≠ q := fun h => (List.nodup_cons.mp hnd).1 (h ▸ hqps)
      rw [List.zip_cons_cons, dlookup, if_neg hpq]
      exact ih ws q (List.nodup_cons.mp hnd).2 hq

/-- C6: connection-parameter normalization is order-preserving and
override-correct.  `_conn_to_dict` returns a dict unchanged; it zips a
positional sequence against the ordered field names so that a shorter
sequence fills only the provided prefix, leaving the remaining fields unset;
a bare scalar (string or integer) fills only the first field name; and
`combine_conn(conn1, conn2)` merges field-by-field with every field of
`conn1` taking precedence and fields only in `conn2` kept. -/
theorem conn_param_normalization (params : List String) (p : String)
    (rest : List String) (d : PyDict) (vs : List PyConn) (s : String) (n : Int)
    (c1 c2 : PyConn) (k : String) (v : PyConn) :
    (conn_to_dict params (.pdict d) = d) ∧
    (vs.length ≤ params.length →
      conn_to_dict params (.pseq vs) = (params.take vs.length).zip vs) ∧
    (params.Nodup → ∀ q ∈ params.drop vs.length,
      dlookup q (conn_to_dict params (.pseq vs)) = none) ∧
    (conn_to_dict (p :: rest) (.pstr s) = [(p, .pstr s)]) ∧
    (conn_to_dict (p :: rest) (.pint n) = [(p, .pint n)]) ∧
    (dlookup k (conn_to_dict params c1) = some v →
      dlookup k (combine_conn params c1 c2) = some v) ∧
    (dlookup k (conn_to_dict params c1) = none →
      dlookup k (combine_conn params c1 c2) = dlookup k (conn_to_dict params c2)) := by
  refine ⟨rfl, ?_, ?_, rfl, rfl, ?_, ?_⟩
  · intro _
    exact zip_eq_zip_take vs params
  · intro hnd q hq
    exact dlookup_zip_drop_none params vs q hnd hq
  · intro h1
    rw [combine_conn, dlookup_dictUpdate, h1]
  · intro h1
    rw [combine_conn, dlookup_dictUpdate, h1]

/-- Witness for C6 at the spec's examples: `("COM3", 9600)` zipped against the
serial field names yields `{port: "COM3", baudrate: 9600}` with the remaining
six fields unset, and `combine({port:"COM5"}, {port:"COM1", baud:19200})`
keeps `port:"COM5"` while retaining `baud:19200`. -/
theorem conn_param_normalization_witness :
    (conn_to_dict ["port", "baudrate", "bytesize", "parity", "stopbits", "xonxoff",
        "rtscts", "dsrdtr"] (.pseq [.pstr "COM3", .pint 9600]) =
      [("port", .pstr "COM3"), ("baudrate", .pint 9600)]) ∧
    (dlookup "bytesize" (conn_to_dict ["port", "baudrate", "bytesize", "parity",
        "stopbits", "xonxoff", "rtscts", "dsrdtr"]
        (.pseq [.pstr "COM3", .pint 9600])) = none) ∧
    (dlookup "port" (combine_conn ["port", "baudrate", "bytesize", "parity",
        "stopbits", "xonxoff", "rtscts", "dsrdtr"]
        (.pdict [("port", .pstr "COM5")])
        (.pdict [("port", .pstr "COM1"), ("baudrate", .pint 19200)])) =
      some (.pstr "COM5")) ∧
    (dlookup "baudrate" (combine_conn ["port", "baudrate", "bytesize", "parity",
        "stopbits", "xonxoff", "rtscts", "dsrdtr"]
        (.pdict [("port", .pstr "COM5")])
        (.pdict [("port", .pstr "COM1"), ("baudrate", .pint 19200)])) =
      some (.pint 19200)) := by
  refine ⟨?_, ?_, ?_, ?_⟩
  · have h := (conn_param_normalization ["port", "baudrate", "bytesize", "parity",
      "stopbits", "xonxoff", "rtscts", "dsrdtr"] "port" [] []
      [.pstr "COM3", .pint 9600] "" 0 (.pint 0) (.pint 0) "" (.pint 0)).2.1
      (by decide)
    exact h.trans rfl
  · exact (conn_param_normalization ["port", "baudrate", "bytesize", "parity",
      "stopbits", "xonxoff", "rtscts", "dsrdtr"] "port" [] []
      [.pstr "COM3", .pint 9600] "" 0 (.pint 0) (.pint 0) "" (.pint 0)).2.2.1
      (by decide) "bytesize" (by decide)
  · exact (conn_param_normalization ["port", "baudrate", "bytesize", "parity",
      "stopbits", "xonxoff", "rtscts", "dsrdtr"] "port" [] []
      [] "" 0 (.pdict [("port", .pstr "COM5")])
      (.pdict [("port", .pstr "COM1"), ("baudrate", .pint 19200)]) "port"
      (.pstr "COM5")).2.2.2.2.2.1 rfl
  · exact (conn_param_normalization ["port", "baudrate", "bytesize", "parity",
      "stopbits", "xonxoff", "rtscts", "dsrdtr"] "port" [] []
      [] "" 0 (.pdict [("port", .pstr "COM5")])
      (.pdict [("port", .pstr "COM1"), ("baudrate", .pint 19200)]) "baudrate"
      (.pint 19200)).2.2.2.2.2.2 rfl

/-! ### Backend autodetection (`autodetect_backend`)

The two shape regexes, evaluated with `re.match` semantics (anchored at the
start of the string, no end anchor). -/

/-- Consume a maximal run of decimal digits. -/
def dropDigits : List Char → List Char
  | [] => []
  | c :: rest => if c.isDigit then dropDigits rest else c :: rest

/-- Consume one-or-more decimal digits (`\d+`); `none` when the first
character is not a digit. -/
def dropDigits1 : List Char → Option (List Char)
  | [] => none
  | c :: rest => if c.isDigit then some (dropDigits rest) else none

/-- Consume `\d+\.` (digits followed by a literal dot). -/
def eatDigitsDot (cs : List Char) : Option (List Char) :=
  (dropDigits1 cs).bind fun r =>
    match r with
    | '.' :: r2 => some r2
    | _ => none

/-- `_network_re = (\d+\.){3}\d+(:\d+)?` under `re.match`: the string starts
with four runs of digits separated by dots (the optional `:port` group never
affects whether the match succeeds). -/
def isNetworkStr (s : String) : Bool :=
  match eatDigitsDot s.data with
  | none => false
  | some r1 =>
    match eatDigitsDot r1 with
    | none => false
    | some r2 =>
      match eatDigitsDot r2 with
      | none => false
      | some r3 => (dropDigits1 r3).isSome

/-- `_serial_re = ^com\d+` with `re.IGNORECASE` under `re.match`: the string
starts with `com` (any case) followed by at least one digit. -/
def isSerialStr (s : String) : Bool :=
  match s.data with
  | c1 :: c2 :: c3 :: c4 :: _ =>
      (c1 = 'c' || c1 = 'C') && (c2 = 'o' || c2 = 'O') && (c3 = 'm' || c3 = 'M') &&
        c4.isDigit
  | _ => false

/-- `_is_network_addr(addr)`: a string matching the network regex. -/
def is_network_addr : PyConn → Bool
  | .pstr s => isNetworkStr s
  | _ => false

/-- `_is_serial_addr(addr)`: a string matching the serial regex. -/
def is_serial_addr : PyConn → Bool
  | .pstr s => isSerialStr s
  | _ => false

/-- The two integers of a tuple head are a valid 16-bit vendor/product
pair. -/
def usbPair : PyConn → PyConn → Bool
  | .pint a, .pint b => 0 ≤ a && a < 65536 && 0 ≤ b && b < 65536
  | _, _ => false

/-- The string checks at the end of `autodetect_backend`, applied to the
(possibly tuple-unwrapped) connection value. -/
def strClassify (c : PyConn) (default : String) : String :=
  if is_network_addr c then "network"
  else if is_serial_addr c then "serial"
  else default

/-- `autodetect_backend(conn, default)`: a tuple/list whose first two
elements are 16-bit integers is USB; any other tuple/list is replaced by its
first element (`conn = conn[0]`, an `IndexError` — modelled as `.error ()` —
when empty) before the string checks; a dict is classified by its `addr`,
`port`, and `vendorID`/`productID` fields in that order, else the default;
everything else goes through the string checks. -/
def autodetect_backend (conn : PyConn) (default : String) : Except Unit String :=
  match conn with
  | .pseq vs =>
      match vs with
      | v0 :: v1 :: _ =>
          if usbPair v0 v1 then .ok "pyusb" else .ok (strClassify v0 default)
      | [v0] => .ok (strClassify v0 default)
      | [] => .error ()
  | .pdict d =>
      if (match dlookup "addr" d with
          | some x => is_network_addr x
          | none => false) then .ok "network"
      else if (match dlookup "port" d with
          | some x => is_serial_addr x
          | none => false) then .ok "serial"
      else if (dlookup "vendorID" d).isSome && (dlookup "productID" d).isSome then
        .ok "pyusb"
      else .ok default
  | c => .ok (strClassify c default)

/-- C5 (amended): `autodetect_backend` classifies by shape as the claim lists
for dicts, strings, valid 16-bit numeric pairs, and non-string non-sequence
scalars — but a tuple or list that is not a valid numeric pair is not mapped
to the default: it is classified by the string rules applied to its first
element (raising `IndexError` when empty). -/
theorem autodetect_backend_classifies (d : PyDict) (vs : List PyConn)
    (v0 v1 : PyConn) (a b n : Int) (s default : String) :
    (0 ≤ a → a < 65536 → 0 ≤ b → b < 65536 →
      autodetect_backend (.pseq (.pint a :: .pint b :: vs)) default = .ok "pyusb") ∧
    (usbPair v0 v1 = false →
      autodetect_backend (.pseq (v0 :: v1 :: vs)) default =
        .ok (strClassify v0 default)) ∧
    (autodetect_backend (.pseq [v0]) default = .ok (strClassify v0 default)) ∧
    (autodetect_backend (.pseq []) default = .error ()) ∧
    ((match dlookup "addr" d with
      | some x => is_network_addr x
      | none => false) = true →
      autodetect_backend (.pdict d) default = .ok "network") ∧
    ((match dlookup "addr" d with
      | some x => is_network_addr x
      | none => false) = false →
      (match dlookup "port" d with
      | some x => is_serial_addr x
      | none => false) = true →
      autodetect_backend (.pdict d) default = .ok "serial") ∧
    ((match dlookup "addr" d with
      | some x => is_network_addr x
      | none => false) = false →
      (match dlookup "port" d with
      | some x => is_serial_addr x
      | none => false) = false →
      (dlookup "vendorID" d).isSome = true → (dlookup "productID" d).isSome = true →
      autodetect_backend (.pdict d) default = .ok "pyusb") ∧
    ((match dlookup "addr" d with
      | some x => is_network_addr x
      | none => false) = false →
      (match dlookup "port" d with
      | some x => is_serial_addr x
      | none => false) = false →
      ((dlookup "vendorID" d).isSome && (dlookup "productID" d).isSome) = false →
      autodetect_backend (.pdict d) default = .ok default) ∧
    (isNetworkStr s = true → autodetect_backend (.pstr s) default = .ok "network") ∧
    (isNetworkStr s = false → isSerialStr s = true →
      autodetect_backend (.pstr s) default = .ok "serial") ∧
    (isNetworkStr s = false → isSerialStr s = false →
      autodetect_backend (.pstr s) default = .ok default) ∧
    (autodetect_backend (.pint n) default = .ok default) := by
  refine ⟨?_, ?_, rfl, rfl, ?_, ?_, ?_, ?_, ?_, ?_, ?_, rfl⟩
  · intro h1 h2 h3 h4
    have : usbPair (.pint a) (.pint b) = true := by
      simp [usbPair, h1, h2, h3, h4]
    simp [autodetect_backend, this]
  · intro h
    simp [autodetect_backend, h]
  · intro h
    simp only [autodetect_backend, h, if_true]
  · intro h1 h2
    simp only [autodetect_backend, h1, h2, Bool.false_eq_true, if_false, if_true]
  · intro h1 h2 h3 h4
    simp only [autodetect_backend, h1, h2, h3, h4, Bool.false_eq_true, if_false,
      Bool.and_self, if_true]
  · intro h1 h2 h3
    simp only [autodetect_backend, h1, h2, h3, Bool.false_eq_true, if_false]
  · intro h
    simp [autodetect_backend, strClassify, is_network_addr, h]
  · intro h1 h2
    simp [autodetect_backend, strClassify, is_network_addr, is_serial_addr, h1, h2]
  · intro h1 h2
    simp [autodetect_backend, strClassify, is_network_addr, is_serial_addr, h1, h2]

/-- C5 counterexample: `("COM3", 9600)` is neither a valid 16-bit numeric
pair nor a dict nor a string, so under the claim it should map to the
supplied default `"visa"`; the code instead takes `conn = conn[0]` and
returns `"serial"`. -/
theorem autodetect_backend_tuple_counterexample :
    autodetect_backend (.pseq [.pstr "COM3", .pint 9600]) "visa" = .ok "serial" ∧
      (Except.ok "serial" : Except Unit String) ≠ .ok "visa" :=
  ⟨rfl, fun h => by simp at h⟩

/-- Witness for C5 at the spec's examples: `"192.168.0.5:80"` is network,
`"COM7"` is serial, `(0x0403, 0x6001)` is USB, and an unmatched string falls
back to the explicit default `"visa"`. -/
theorem autodetect_backend_classifies_witness :
    (autodetect_backend (.pstr "192.168.0.5:80") "visa" = .ok "network") ∧
    (autodetect_backend (.pstr "COM7") "visa" = .ok "serial") ∧
    (autodetect_backend (.pseq [.pint 0x0403, .pint 0x6001]) "visa" = .ok "pyusb") ∧
    (autodetect_backend (.pstr "ASRL1") "visa" = .ok "visa") :=
  ⟨(autodetect_backend_classifies [] [] (.pint 0) (.pint 0) 0 0 0 "192.168.0.5:80"
      "visa").2.2.2.2.2.2.2.2.1 (by decide),
   (autodetect_backend_classifies [] [] (.pint 0) (.pint 0) 0 0 0 "COM7"
      "visa").2.2.2.2.2.2.2.2.2.1 (by decide) (by decide),
   (autodetect_backend_classifies [] [] (.pint 0) (.pint 0) 0x0403 0x6001 0 ""
      "visa").1 (by decide) (by decide) (by decide) (by decide),
   (autodetect_backend_classifies [] [] (.pint 0) (.pint 0) 0 0 0 "ASRL1"
      "visa").2.2.2.2.2.2.2.2.2.2.1 (by decide) (by decide)⟩

/-! ### Fixed-size reads (`SerialDeviceBackend.read` / `PyUSBDeviceBackend.read`)

`raw` is whatever bytes the transport's `instr.read(size)` delivered before
the timeout; the wrapper checks the length. -/

/-- `SerialDeviceBackend.read(size=N)` (the `size is not None` branch):
raise the backend `Error` when the transport returned a different number of
bytes than requested. -/
def serial_read_size (size : Nat) (raw : Bytes) : Except Unit Bytes :=
  if raw.length ≠ size then .error () else .ok raw

/-- `PyUSBDeviceBackend.read(size=N)` (the `size is not None` branch): the
length mismatch raises only when the backend was constructed with
`check_read_size=True`. -/
def pyusb_read_size (size : Nat) (checkReadSize : Bool) (raw : Bytes) :
    Except Unit Bytes :=
  if raw.length ≠ size ∧ checkReadSize then .error () else .ok raw

/-- C7: a fixed-size read either returns exactly the requested number of
bytes or raises: whatever the transport delivered, a normally returned
serial `read(N)` has length `N`, and likewise for the PyUSB backend whenever
it was constructed with `check_read_size=True`. -/
theorem read_size_exact (size : Nat) (raw r rusb : Bytes) :
    (serial_read_size size raw = .ok r → r.length = size) ∧
    (pyusb_read_size size true raw = .ok rusb → rusb.length = size) := by
  constructor
  · intro h
    rw [serial_read_size] at h
    by_cases hlen : raw.length = size
    · rw [if_neg (by simpa using hlen)] at h
      cases h
      exact hlen
    · rw [if_pos hlen] at h
      cases h
  · intro h
    rw [pyusb_read_size] at h
    by_cases hlen : raw.length = size
    · rw [if_neg (by simp [hlen])] at h
      cases h
      exact hlen
    · rw [if_pos ⟨hlen, rfl⟩] at h
      cases h

/-- Witness for C7: a transport answer of exactly 2 bytes passes both
checks. -/
theorem read_size_exact_witness :
    ([5, 6] : Bytes).length = 2 ∧ ([5, 6] : Bytes).length = 2 :=
  ⟨(read_size_exact 2 [5, 6] [5, 6] [5, 6]).1 rfl,
   (read_size_exact 2 [5, 6] [5, 6] [5, 6]).2 rfl⟩

/-! ### VISA locking (`VisaDeviceBackend.lock` / `unlock`) -/

structure LockState where
  doLock : Bool
  primCalls : Nat
  deriving DecidableEq

/-- The version-specific transport primitive `VisaDeviceBackend._lock`
(pyvisa ≥ 1.6 branch): `self.instr.lock(...)`.  Recorded as a primitive
invocation. -/
def visa_prim_lock (st : LockState) : LockState :=
  { st with primCalls := st.primCalls + 1 }

/-- The transport primitive `VisaDeviceBackend._unlock`:
`self.instr.unlock()`. -/
def visa_prim_unlock (st : LockState) : LockState :=
  { st with primCalls := st.primCalls + 1 }

/-- `VisaDeviceBackend.lock(timeout)`:
`if self._do_lock: self.lock(timeout=timeout)` — the method calls **itself**,
not the `_lock` primitive.  Fuel-indexed unfolding of the recursion: `none`
means the call has not returned after `fuel` recursive steps. -/
def visa_lock (fuel : Nat) (st : LockState) : Option LockState :=
  match fuel with
  | 0 => none
  | fuel + 1 => if st.doLock then visa_lock fuel st else some st

/-- `VisaDeviceBackend.unlock()`: `if self._do_lock: self.unlock()` — again a
self-call rather than `_unlock`. -/
def visa_unlock (fuel : Nat) (st : LockState) : Option LockState :=
  match fuel with
  | 0 => none
  | fuel + 1 => if st.doLock then visa_unlock fuel st else some st

/-- C10: with `_do_lock` true, `lock()` and `unlock()` recurse into
themselves for any amount of fuel and never return normally, so the
transport primitives are never reached; with `_do_lock` false they return
immediately, without any primitive invocation (the primitive-call counter of
any normal return is unchanged). -/
theorem visa_lock_self_recursion (st : LockState) (fuel : Nat) :
    (st.doLock = true → visa_lock fuel st = none ∧ visa_unlock fuel st = none) ∧
    (st.doLock = false → 0 < fuel →
      visa_lock fuel st = some st ∧ visa_unlock fuel st = some st) ∧
    (∀ st', visa_lock fuel st = some st' → st'.primCalls = st.primCalls) ∧
    (∀ st', visa_unlock fuel st = some st' → st'.primCalls = st.primCalls) := by
  induction fuel with
  | zero =>
    refine ⟨fun _ => ⟨rfl, rfl⟩, fun _ h => absurd h (by simp), ?_, ?_⟩ <;>
      · intro st' h
        simp [visa_lock, visa_unlock] at h
  | succ n ih =>
    refine ⟨?_, ?_, ?_, ?_⟩
    · intro h
      rw [visa_lock, visa_unlock, if_pos h, if_pos h]
      exact (ih.1 h)
    · intro h _
      rw [visa_lock, visa_unlock, if_neg (by simp [h]), if_neg (by simp [h])]
      exact ⟨rfl, rfl⟩
    · intro st' h
      rw [visa_lock] at h
      by_cases hd : st.doLock = true
      · rw [if_pos hd] at h
        exact ih.2.2.1 st' h
      · rw [if_neg hd] at h
        cases h
        rfl
    · intro st' h
      rw [visa_unlock] at h
      by_cases hd : st.doLock = true
      · rw [if_pos hd] at h
        exact ih.2.2.2 st' h
      · rw [if_neg hd] at h
        cases h
        rfl

/-- Witness for C10: with `_do_lock` true the calls have not returned after
100 steps and the transport primitive was never invoked; with `_do_lock`
false they are immediate no-ops. -/
theorem visa_lock_self_recursion_witness :
    (visa_lock 100 { doLock := true, primCalls := 0 } = none ∧
      visa_unlock 100 { doLock := true, primCalls := 0 } = none) ∧
    (visa_lock 100 { doLock := false, primCalls := 0 } =
        some { doLock := false, primCalls := 0 } ∧
      visa_unlock 100 { doLock := false, primCalls := 0 } =
        some { doLock := false, primCalls := 0 }) :=
  ⟨(visa_lock_self_recursion { doLock := true, primCalls := 0 } 100).1 rfl,
   (visa_lock_self_recursion { doLock := false, primCalls := 0 } 100).2.1 rfl
     (by decide)⟩

/-! ### Connect-on-operation reference counting (`SerialDeviceBackend.single_op`)

State of one serial backend created with `connect_on_operation=True`:
`openedStack` is `self._opened_stack` (a Python `int`, so modelled as `Int`),
and `events` records the transport `_do_open`/`_do_close` invocations. -/

inductive OpEvent where
  | devOpen
  | devClose
  deriving DecidableEq

structure OpState where
  connectOnOperation : Bool
  openedStack : Int
  events : List OpEvent
  deriving DecidableEq

/-- The transport open (`SerialDeviceBackend._do_open`). -/
def do_open (st : OpState) : OpState := { st with events := st.events ++ [.devOpen] }

/-- The transport close (`SerialDeviceBackend._do_close`). -/
def do_close (st : OpState) : OpState := { st with events := st.events ++ [.devClose] }

/-- `SerialDeviceBackend._op_open`: under `connect_on_operation`, open the
transport when the counter is falsy (`not self._opened_stack`, i.e. zero)
and increment the counter. -/
def op_open (st : OpState) : OpState :=
  if st.connectOnOperation then
    let st1 := if st.openedStack = 0 then do_open st else st
    { st1 with openedStack := st1.openedStack + 1 }
  else st

/-- `SerialDeviceBackend._op_close`: under `connect_on_operation`, decrement
the counter and close the transport when it became falsy (zero). -/
def op_close (st : OpState) : OpState :=
  if st.connectOnOperation then
    let st1 := { st with openedStack := st.openedStack - 1 }
    if st1.openedStack = 0 then do_close st1 else st1
  else st

/-- Client code running inside a backend: a primitive action (which may
raise), sequencing (an exception skips the rest), and a `single_op` scope. -/
inductive SProg where
  | act (raises : Bool)
  | seq (p q : SProg)
  | singleOp (p : SProg)

/-- Execution: `single_op` is `self._op_open(); try: yield; finally:
self._op_close()`, so the decrement-and-maybe-close runs on raising exits
too. -/
def runProg : SProg → OpState → Outcome × OpState
  | .act r, st => (if r then .raised else .normal, st)
  | .seq p q, st =>
      match runProg p st with
      | (.raised, st1) => (.raised, st1)
      | (.normal, st1) => runProg q st1
  | .singleOp p, st =>
      let st1 := op_open st
      let r := runProg p st1
      (r.1, op_close r.2)

theorem op_open_spec (st : OpState) (h : st.connectOnOperation = true) :
    (op_open st).openedStack = st.openedStack + 1 ∧
    (op_open st).connectOnOperation = true ∧
    (op_open st).events = st.events ++ (if st.openedStack = 0 then [.devOpen] else []) := by
  rw [op_open, if_pos h]
  by_cases hz : st.openedStack = 0 <;> simp [hz, do_open, h]

theorem op_close_spec (st : OpState) (h : st.connectOnOperation = true) :
    (op_close st).openedStack = st.openedStack - 1 ∧
    (op_close st).connectOnOperation = true ∧
    (op_close st).events = st.events ++ (if st.openedStack = 1 then [.devClose] else []) := by
  rw [op_close, if_pos h]
  by_cases hz : st.openedStack - 1 = 0
  · have : st.openedStack = 1 := by omega
    simp [hz, do_close, h, this]
  · have : ¬ st.openedStack = 1 := by omega
    simp [hz, do_close, h, this]

theorem runProg_balanced (p : SProg) :
    ∀ st : OpState, st.connectOnOperation = true →
      (runProg p st).2.openedStack = st.openedStack ∧
      (runProg p st).2.connectOnOperation = true := by
  induction p with
  | act r =>
    intro st h
    by_cases hr : r <;> simp [runProg, hr, h]
  | seq p q ihp ihq =>
    intro st h
    rw [runProg]
    cases hrp : runProg p st with
    | mk o st1 =>
      have hp := ihp st h
      rw [hrp] at hp
      cases o with
      | raised => exact hp
      | normal =>
        have hq := ihq st1 hp.2
        exact ⟨hq.1.trans hp.1, hq.2⟩
  | singleOp p ih =>
    intro st h
    have ho := op_open_spec st h
    have hp := ih (op_open st) ho.2.1
    have hc := op_close_spec (runProg p (op_open st)).2 hp.2
    rw [runProg]
    refine ⟨?_, hc.2.1⟩
    rw [hc.1, hp.1, ho.1]
    omega

theorem runProg_nested_no_events (p : SProg) :
    ∀ st : OpState, st.connectOnOperation = true → 0 < st.openedStack →
      (runProg p st).2.events = st.events := by
  induction p with
  | act r =>
    intro st h hpos
    by_cases hr : r <;> simp [runProg, hr]
  | seq p q ihp ihq =>
    intro st h hpos
    rw [runProg]
    cases hrp : runProg p st with
    | mk o st1 =>
      have hb := runProg_balanced p st h
      rw [hrp] at hb
      have he := ihp st h hpos
      rw [hrp] at he
      cases o with
      | raised => exact he
      | normal =>
        have := ihq st1 hb.2 (by rw [hb.1]; exact hpos)
        rw [this, he]
  | singleOp p ih =>
    intro st h hpos
    have ho := op_open_spec st h
    have hb := runProg_balanced p (op_open st) ho.2.1
    have hp := ih (op_open st) ho.2.1 (by rw [ho.1]; omega)
    have hc := op_close_spec (runProg p (op_open st)).2 hb.2
    rw [runProg]
    simp only
    rw [hc.2.2, hp, ho.2.2]
    have h1 : ¬ st.openedStack = 0 := by omega
    have h2 : ¬ (runProg p (op_open st)).2.openedStack = 1 := by
      rw [hb.1, ho.1]; omega
    simp [h1, h2]

/-- C8: for a serial backend with `connect_on_operation=True`:
`_op_open` increments the counter and invokes the transport open exactly on
the zero-to-one transition; `_op_close` decrements and invokes the transport
close exactly on the one-to-zero transition; a whole program of (possibly
raising, possibly nested) `single_op` scopes restores the counter on every
exit path — in particular a scope whose body raises still decrements — and a
program run with the counter already positive (i.e. nested inside an outer
`single_op`) performs no transport open or close at all. -/
theorem single_op_refcount (p : SProg) (st : OpState)
    (h : st.connectOnOperation = true) :
    ((op_open st).openedStack = st.openedStack + 1 ∧
      (op_open st).events =
        st.events ++ (if st.openedStack = 0 then [.devOpen] else [])) ∧
    ((op_close st).openedStack = st.openedStack - 1 ∧
      (op_close st).events =
        st.events ++ (if st.openedStack = 1 then [.devClose] else [])) ∧
    ((runProg p st).2.openedStack = st.openedStack) ∧
    ((runProg (.singleOp (.act true)) st).1 = .raised ∧
      (runProg (.singleOp (.act true)) st).2.openedStack = st.openedStack) ∧
    (0 < st.openedStack → (runProg p st).2.events = st.events) := by
  refine ⟨⟨(op_open_spec st h).1, (op_open_spec st h).2.2⟩,
    ⟨(op_close_spec st h).1, (op_close_spec st h).2.2⟩,
    (runProg_balanced p st h).1, ⟨?_, (runProg_balanced (.singleOp (.act true)) st h).1⟩,
    runProg_nested_no_events p st h⟩
  rw [runProg]
  simp [runProg]

/-- Witness for C8 at counter `0` with a scope containing two nested scopes
(the second of which raises): the transport is opened once at entry and
closed once at exit, the nested scopes touch it not at all, and the counter
returns to `0`. -/
theorem single_op_refcount_witness :
    (runProg (.singleOp (.seq (.singleOp (.act false)) (.singleOp (.act true))))
        { connectOnOperation := true, openedStack := 0, events := [] }).2.openedStack =
      ({ connectOnOperation := true, openedStack := 0, events := [] } : OpState).openedStack ∧
    (runProg (.singleOp (.seq (.singleOp (.act false)) (.singleOp (.act true))))
        { connectOnOperation := true, openedStack := 0, events := [] }).2.events =
      [.devOpen, .devClose] :=
  ⟨(single_op_refcount (.singleOp (.seq (.singleOp (.act false)) (.singleOp (.act true))))
      { connectOnOperation := true, openedStack := 0, events := [] } rfl).2.2.1,
   by decide⟩

/-! ### Backend factory (`new_backend`)

`NBConn` is the `conn` argument of `new_backend`: an already-open backend
instance, or a raw connection value (`PyConn.pseq` models Python tuples; a
tuple whose first element names a registered kind triggers the recursion).
`NBResult` records what the factory produces: the instance passed through,
or the resolved kind together with the `conn` value handed to the backend
constructor. -/

inductive PyErr where
  | indexError
  | validationError
  deriving DecidableEq

inductive NBConn where
  | inst (i : Nat)
  | raw (c : PyConn)

inductive NBResult where
  | passthrough (i : Nat)
  | constructed (kind : String) (connArg : PyConn)

/-- The registered backend kind names (`_backends` keys, all optional
dependencies available). -/
def kinds : List String := ["visa", "serial", "ft232", "network", "pyusb"]

/-- `_conn_params` of each registered backend class (`visa` inherits the
base class's `["addr"]`). -/
def backendConnParams : String → List String
  | "serial" => ["port", "baudrate", "bytesize", "parity", "stopbits", "xonxoff",
      "rtscts", "dsrdtr"]
  | "ft232" => ["port", "baudrate", "bytesize", "parity", "stopbits", "xonxoff", "rtscts"]
  | "pyusb" => ["vendorID", "productID", "index", "endpoint_read", "endpoint_write",
      "backend"]
  | "network" => ["addr", "port"]
  | _ => ["addr"]

/-- `_as_backend(backend, conn)`: resolve `"auto"` through
`autodetect_backend` (default `"visa"`), then validate the name against the
registry (`funcargparse.check_parameter_range` raises on unknown names). -/
def as_backend (backend : String) (conn : PyConn) : Except PyErr String :=
  match (if backend = "auto" then autodetect_backend conn "visa" else .ok backend) with
  | .error _ => .error .indexError
  | .ok k => if kinds.contains k then .ok k else .error .validationError

/-- The non-recursive tail of `new_backend`: resolve the kind, merge
registry defaults for that kind under the supplied parameters when present
(`conn = backend.combine_conn(conn, defaults[backend_name])`), and hand the
result to the backend constructor. -/
def new_backend_direct (c : PyConn) (backend : String) (defaults : Option PyDict) :
    Except PyErr NBResult :=
  match as_backend backend c with
  | .error e => .error e
  | .ok k =>
      match defaults with
      | some dd =>
          match dlookup k dd with
          | some dp => .ok (.constructed k
              (.pdict (combine_conn (backendConnParams k) c dp)))
          | none => .ok (.constructed k c)
      | none => .ok (.constructed k c)

/-- `new_backend(conn, backend, defaults, **kwargs)`: pass an existing
backend instance through; for a tuple whose first element names a registered
kind, recurse as `new_backend(conn[1], backend=conn[0], **kwargs)` — note
that `defaults` is **not** forwarded — raising `IndexError` when the tuple
has no second element; otherwise resolve and construct directly. -/
def new_backend : NBConn → String → Option PyDict → Except PyErr NBResult
  | .inst i, _, _ => .ok (.passthrough i)
  | .raw (.pseq (.pstr kname :: p :: rest)), backend, defaults =>
      if kinds.contains kname then new_backend (.raw p) kname none
      else new_backend_direct (.pseq (.pstr kname :: p :: rest)) backend defaults
  | .raw (.pseq [.pstr kname]), backend, defaults =>
      if kinds.contains kname then .error .indexError
      else new_backend_direct (.pseq [.pstr kname]) backend defaults
  | .raw (.pstr s), backend, defaults => new_backend_direct (.pstr s) backend defaults
  | .raw (.pint n), backend, defaults => new_backend_direct (.pint n) backend defaults
  | .raw (.pdict d), backend, defaults => new_backend_direct (.pdict d) backend defaults
  | .raw (.pseq []), backend, defaults => new_backend_direct (.pseq []) backend defaults
  | .raw (.pseq (.pint n :: rest)), backend, defaults =>
      new_backend_direct (.pseq (.pint n :: rest)) backend defaults
  | .raw (.pseq (.pseq vs :: rest)), backend, defaults =>
      new_backend_direct (.pseq (.pseq vs :: rest)) backend defaults
  | .raw (.pseq (.pdict d :: rest)), backend, defaults =>
      new_backend_direct (.pseq (.pdict d :: rest)) backend defaults

/-- `conn` values that do not trigger the `(kind, params)` recursion. -/
def notKindPair : PyConn → Bool
  | .pseq (.pstr k0 :: _) => !kinds.contains k0
  | _ => true

/-- C2 (amended): when `conn` is supplied directly (not as a
`(kind, params)` pair) and the resolved kind `k` has an entry in `defaults`,
the `conn` handed to the backend constructor is
`combine_conn(conn, defaults[k])` — supplied fields take field-by-field
precedence over the defaults (see `conn_param_normalization` for the merge
semantics); with no entry the supplied `conn` is passed unchanged, and an
existing backend instance is returned as-is.  When `conn` **is** a
registered-kind pair, however, the recursion drops `defaults`
(`new_backend(conn[1], backend=conn[0], **kwargs)` does not forward it), so
no defaults merge happens in that case. -/
theorem new_backend_defaults_merge (c : PyConn) (backend k kname : String)
    (dd : PyDict) (dp : PyConn) (i : Nat) (p : PyConn) (els : List PyConn)
    (defaults : Option PyDict) :
    (notKindPair c = true → as_backend backend c = .ok k → dlookup k dd = some dp →
      new_backend (.raw c) backend (some dd) =
        .ok (.constructed k (.pdict (combine_conn (backendConnParams k) c dp)))) ∧
    (notKindPair c = true → as_backend backend c = .ok k → dlookup k dd = none →
      new_backend (.raw c) backend (some dd) = .ok (.constructed k c)) ∧
    (kinds.contains kname = true →
      new_backend (.raw (.pseq (.pstr kname :: p :: els))) backend defaults =
        new_backend (.raw p) kname none) ∧
    (new_backend (.inst i) backend defaults = .ok (.passthrough i)) := by
  have hdirect : notKindPair c = true →
      new_backend (.raw c) backend (some dd) = new_backend_direct c backend (some dd) := by
    intro hnp
    match c with
    | .pstr s => rw [new_backend]
    | .pint n => rw [new_backend]
    | .pdict d0 => rw [new_backend]
    | .pseq [] => rw [new_backend]
    | .pseq [.pstr k0] =>
        rw [notKindPair] at hnp
        rw [new_backend, if_neg (by simp at hnp; simp [hnp])]
    | .pseq (.pstr k0 :: p0 :: rest0) =>
        rw [notKindPair] at hnp
        rw [new_backend, if_neg (by simp at hnp; simp [hnp])]
    | .pseq (.pint n0 :: rest0) => rw [new_backend]
    | .pseq (.pseq vs0 :: rest0) => rw [new_backend]
    | .pseq (.pdict d0 :: rest0) => rw [new_backend]
  refine ⟨?_, ?_, ?_, by rw [new_backend]⟩
  · intro hnp hk hdp
    rw [hdirect hnp, new_backend_direct, hk]
    simp [hdp]
  · intro hnp hk hdp
    rw [hdirect hnp, new_backend_direct, hk]
    simp [hdp]
  · intro hkn
    rw [new_backend, if_pos hkn]

/-- C2 counterexample: `new_backend(("serial", "COM3"), backend="auto",
defaults={"serial": {"baudrate": 9600}})`.  The resolved kind `"serial"` has
an entry in `defaults`, yet the constructor receives the bare `"COM3"`, not
the merge (which is a dict containing the default `baudrate`). -/
theorem new_backend_pair_drops_defaults_counterexample :
    new_backend (.raw (.pseq [.pstr "serial", .pstr "COM3"])) "auto"
        (some [("serial", .pdict [("baudrate", .pint 9600)])]) =
      .ok (.constructed "serial" (.pstr "COM3")) ∧
    (.pstr "COM3" : PyConn) ≠
      .pdict (combine_conn (backendConnParams "serial") (.pstr "COM3")
        (.pdict [("baudrate", .pint 9600)])) := by
  constructor
  · rw [new_backend, if_pos (by decide), new_backend, new_backend_direct]
    rfl
  · exact fun h => PyConn.noConfusion h

/-- Witness for C2 at `conn = "COM3"`, `backend = "auto"` (resolved to
`"serial"` by the detector) with `defaults = {"serial": {"baudrate": 9600}}`:
the constructor receives the merged dict, and the pair form
`("serial", "COM3")` recurses with the defaults dropped. -/
theorem new_backend_defaults_merge_witness :
    (new_backend (.raw (.pstr "COM3")) "auto"
        (some [("serial", .pdict [("baudrate", .pint 9600)])]) =
      .ok (.constructed "serial" (.pdict (combine_conn (backendConnParams "serial")
        (.pstr "COM3") (.pdict [("baudrate", .pint 9600)]))))) ∧
    (new_backend (.raw (.pseq (.pstr "serial" :: .pstr "COM3" :: []))) "auto"
        (some [("serial", .pdict [("baudrate", .pint 9600)])]) =
      new_backend (.raw (.pstr "COM3")) "serial" none) :=
  ⟨(new_backend_defaults_merge (.pstr "COM3") "auto" "serial" "serial"
      [("serial", .pdict [("baudrate", .pint 9600)])] (.pdict [("baudrate", .pint 9600)])
      0 (.pstr "COM3") [] none).1 rfl (by rfl) rfl,
   (new_backend_defaults_merge (.pstr "COM3") "auto" "serial" "serial"
      [("serial", .pdict [("baudrate", .pint 9600)])] (.pdict [("baudrate", .pint 9600)])
      0 (.pstr "COM3") []
      (some [("serial", .pdict [("baudrate", .pint 9600)])])).2.2.1 (by decide)⟩

end CommBackend
